import Mathlib

/-!
Shallow embedding of `src/src/lib.rs` (crate `scream-id`): a Steam account
identifier codec.  Strings are modelled as `List Char`; machine integers
(`u32`, `u64`) are modelled as `Nat` with explicit bounds (`2^32`, `2^64`)
where the Rust code's types impose them.  Rust `Option` becomes Lean
`Option`; a Rust panic (`unwrap()` on a failed parse) is modelled by the
`NewOutcome.panics` constructor.

Identifier renamings forced by Lean keywords: the Rust enum `Type` is
`Type'` here, the struct field `universe` is `universe_`, and the struct
field `instance` is `instance_`.

A note on string length: `SteamID::validate_steam64` checks `input.len()`,
the UTF-8 *byte* length, while the model checks the character count.  The
two agree on every input relevant to acceptance: a string containing a
multi-byte character contains a non-ASCII (hence non-digit, non-plus)
character, so `u64::from_str_radix` rejects it and both the code and the
model return `none` regardless of which length was compared.
-/

namespace ScreamId

/-- Rust `const ACCOUNT_ID_MASK: u64 = 0xFFFFFFFF` (masking by it = `% 2^32`). -/
def ACCOUNT_ID_MASK : Nat := 0xFFFFFFFF

/-- Rust `const ACCOUNT_INSTANCE_MASK: u64 = 0x000FFFFF` (masking by it = `% 2^20`). -/
def ACCOUNT_INSTANCE_MASK : Nat := 0x000FFFFF

/-- Rust `enum Universe` with discriminants 0,1,2,3,4. -/
inductive Universe where
  | Invalid
  | Public
  | Beta
  | Internal
  | Dev
deriving DecidableEq, Repr

/-- Rust `enum Type` with discriminants 0..10 (named `Type'` because `Type` is a
Lean sort). -/
inductive Type' where
  | Invalid
  | Individual
  | Multiseat
  | GameServer
  | AnonGameServer
  | Pending
  | ContentServer
  | Clan
  | Chat
  | P2PSuperSeeder
  | AnonUser
deriving DecidableEq, Repr

/-- Rust `enum Instance` with discriminants All=0, Desktop=1, Console=2, Web=4. -/
inductive Instance where
  | All
  | Desktop
  | Console
  | Web
deriving DecidableEq, Repr

/-- The Rust `as u32` discriminant cast on `Universe`. -/
def Universe.toU32 : Universe → Nat
  | .Invalid => 0
  | .Public => 1
  | .Beta => 2
  | .Internal => 3
  | .Dev => 4

/-- The Rust `as u32` discriminant cast on `Instance`. -/
def Instance.toU32 : Instance → Nat
  | .All => 0
  | .Desktop => 1
  | .Console => 2
  | .Web => 4

/-- Rust `Universe::from_u32`. -/
def Universe.from_u32 (value : Nat) : Option Universe :=
  match value with
  | 0 => some .Invalid
  | 1 => some .Public
  | 2 => some .Beta
  | 3 => some .Internal
  | 4 => some .Dev
  | _ => none

/-- Rust `Type::from_u32`. -/
def Type'.from_u32 (value : Nat) : Option Type' :=
  match value with
  | 0 => some .Invalid
  | 1 => some .Individual
  | 2 => some .Multiseat
  | 3 => some .GameServer
  | 4 => some .AnonGameServer
  | 5 => some .Pending
  | 6 => some .ContentServer
  | 7 => some .Clan
  | 8 => some .Chat
  | 9 => some .P2PSuperSeeder
  | 10 => some .AnonUser
  | _ => none

/-- Rust `Instance::from_u32`. -/
def Instance.from_u32 (value : Nat) : Option Instance :=
  match value with
  | 0 => some .All
  | 1 => some .Desktop
  | 2 => some .Console
  | 4 => some .Web
  | _ => none

/-- Rust `struct SteamID { universe, type_, instance, account_id: u32 }`.
`account_id` is a `Nat` carrying values below `2^32` wherever the code
constructs one (the `u32` type bound). -/
structure SteamID where
  universe_ : Universe
  type_ : Type'
  instance_ : Instance
  account_id : Nat
deriving DecidableEq, Repr

/-- One character of `u64::from_str_radix(_, 10)` / `str::parse::<uN>`:
an ASCII decimal digit's value, or `none` for any other character. -/
def digitVal (c : Char) : Option Nat :=
  if c.isDigit then some (c.toNat - 48) else none

/-- The digit-accumulation loop of Rust's checked integer parsing: each step
computes `acc * 10 + d` with an overflow check against `bound` (the
excluded upper bound of the integer type, e.g. `2^64` for `u64`).
In `Nat` the single comparison `acc * 10 + d < bound` is exactly the
conjunction of Rust's `checked_mul`/`checked_add` tests. -/
def parseDigits (bound : Nat) : List Char → Nat → Option Nat
  | [], acc => some acc
  | c :: cs, acc =>
    match digitVal c with
    | none => none
    | some d => if acc * 10 + d < bound then parseDigits bound cs (acc * 10 + d) else none

/-- Rust `u64::from_str_radix(s, 10)` (and, with `bound = 2^32`,
`str::parse::<u32>()`): an optional leading `'+'` followed by one or more
decimal digits, rejecting empty digit strings and overflow.  A leading
`'-'` on an unsigned type is not a sign, so it falls through to the digit
loop and fails there. -/
def fromStrRadix10 (bound : Nat) (s : List Char) : Option Nat :=
  match s with
  | [] => none
  | c :: rest =>
    if c = '+' then
      match rest with
      | [] => none
      | _ => parseDigits bound rest 0
    else parseDigits bound (c :: rest) 0

/-- Rust `SteamID::validate_steam64`: length-17 check, `u64` parse, and a
nonzero low-32-bits check (`id & ACCOUNT_ID_MASK != 0`, i.e.
`id % 2^32 ≠ 0`). -/
def validate_steam64 (input : List Char) : Option Nat :=
  if input.length = 17 then
    match fromStrRadix10 (2^64) input with
    | some id => if id % 2^32 ≠ 0 then some id else none
    | none => none
  else none

/-- Rust `str::split(':')`: the pieces of the string between occurrences
of `':'`, including empty pieces; splitting `""` gives `[""]`. -/
def splitOnSep : List Char → List (List Char)
  | [] => [[]]
  | c :: cs =>
    if c = ':' then [] :: splitOnSep cs
    else
      match splitOnSep cs with
      | p :: ps => (c :: p) :: ps
      | [] => [[c]]

/-- Rust `SteamID::validate_steam2`: split on `':'`, require exactly 3 parts,
require the first part to be literally `"STEAM_0"` or `"STEAM_1"`, and
return the original input. -/
def validate_steam2 (input : List Char) : Option (List Char) :=
  match splitOnSep input with
  | [univ, _, _] =>
    if univ ≠ "STEAM_0".toList ∧ univ ≠ "STEAM_1".toList then none
    else some input
  | _ => none

/-- Outcome of `SteamID::new`: a normal return of `Option<SteamID>`, or a
Rust panic (from `.unwrap()` on a failed segment parse). -/
inductive NewOutcome where
  | panics
  | returns (result : Option SteamID)
deriving DecidableEq, Repr

/-- Rust `SteamID::new`.  The legacy branch calls `.unwrap()` on
`account_id.parse::<u32>()` (evaluated first in the source) and on
`universe.parse::<u32>()`, so a failed segment parse panics instead of
returning `None`.  The `% 2^32` on the universe field is the `as u32`
cast of `id64 >> 56` (a no-op for `id64 < 2^64`); the other casts follow
masks that already bound the value below `2^32`. -/
def SteamID.new (input : List Char) : NewOutcome :=
  match validate_steam64 input with
  | some id64 =>
    NewOutcome.returns (some {
      universe_ := (Universe.from_u32 (id64 / 2^56 % 2^32)).getD Universe.Invalid
      type_ := (Type'.from_u32 (id64 / 2^52 % 16)).getD Type'.Invalid
      instance_ := (Instance.from_u32 (id64 / 2^32 % 2^20)).getD Instance.All
      account_id := id64 % 2^32 })
  | none =>
    match validate_steam2 input with
    | some id2 =>
      match splitOnSep id2 with
      | _ :: universeStr :: accountStr :: _ =>
        match fromStrRadix10 (2^32) accountStr with
        | none => NewOutcome.panics
        | some acct =>
          match fromStrRadix10 (2^32) universeStr with
          | none => NewOutcome.panics
          | some u =>
            NewOutcome.returns (some {
              universe_ := if u = 0 then Universe.Public
                           else (Universe.from_u32 u).getD Universe.Public
              type_ := Type'.Individual
              instance_ := Instance.Desktop
              account_id := acct })
      | _ => NewOutcome.panics
    | none => NewOutcome.returns none

/-- Rust `SteamID::render_as_steam2`.  `Nat.toDigits 10` is the decimal
rendering of Rust's `format!("{}", _)`; the source's
`((self.account_id / 2) as f64).floor()` equals the integer
`self.account_id / 2` because `u32 / 2 < 2^31 < 2^53` is exactly
representable in `f64`, `floor` is the identity on it, and Rust's
`Display` for an integral `f64` prints its decimal digits. -/
def SteamID.render_as_steam2 (self : SteamID) : Option (List Char) :=
  if self.type_ ≠ Type'.Individual then none
  else
    let univ := self.universe_.toU32
    let univ := if univ = 1 then 0 else univ
    some ("STEAM_".toList ++ Nat.toDigits 10 univ
      ++ ':' :: Nat.toDigits 10 self.instance_.toU32
      ++ ':' :: Nat.toDigits 10 (self.account_id / 2))

/-! ## Characterization of the numeric parser -/

/-- The numeric value of a digit string (most significant digit first). -/
def digitsVal (s : List Char) : Nat :=
  s.foldl (fun a c => a * 10 + (c.toNat - 48)) 0

theorem foldl_step_le (l : List Char) (a : Nat) :
    a ≤ l.foldl (fun acc c => acc * 10 + (c.toNat - 48)) a := by
  induction l generalizing a with
  | nil => exact Nat.le_refl a
  | cons c cs ih =>
    simp only [List.foldl_cons]
    exact Nat.le_trans (by omega) (ih (a * 10 + (c.toNat - 48)))

theorem parseDigits_eq_some_iff (bound : Nat) (l : List Char) (acc v : Nat)
    (hacc : acc < bound) :
    parseDigits bound l acc = some v ↔
      (l.all Char.isDigit = true ∧
        v = l.foldl (fun a c => a * 10 + (c.toNat - 48)) acc ∧ v < bound) := by
  induction l generalizing acc with
  | nil =>
    simp only [parseDigits, Option.some.injEq, List.all_nil, List.foldl_nil, true_and]
    constructor
    · rintro rfl; exact ⟨rfl, hacc⟩
    · rintro ⟨rfl, _⟩; rfl
  | cons c cs ih =>
    simp only [parseDigits, digitVal, List.all_cons, List.foldl_cons, Bool.and_eq_true]
    by_cases hd : c.isDigit
    · simp only [hd, if_true, true_and]
      by_cases hb : acc * 10 + (c.toNat - 48) < bound
      · simp only [hb, if_true]
        exact ih (acc * 10 + (c.toNat - 48)) hb
      · simp only [hb, if_false]
        constructor
        · intro h; exact absurd h (by simp)
        · rintro ⟨_, rfl, hv⟩
          exact absurd (Nat.lt_of_le_of_lt (foldl_step_le cs _) hv) hb
    · simp [hd]

theorem fromStrRadix10_eq_some_iff (bound : Nat) (l : List Char) (v : Nat)
    (hb : 0 < bound) :
    fromStrRadix10 bound l = some v ↔
      (v < bound ∧
        ((l ≠ [] ∧ l.all Char.isDigit = true ∧ digitsVal l = v) ∨
         (∃ d, l = '+' :: d ∧ d ≠ [] ∧ d.all Char.isDigit = true ∧ digitsVal d = v))) := by
  cases l with
  | nil => simp [fromStrRadix10]
  | cons c rest =>
    by_cases hc : c = '+'
    · subst hc
      cases rest with
      | nil =>
        have hred : fromStrRadix10 bound ['+'] = none := rfl
        rw [hred]
        constructor
        · intro h; exact absurd h (by simp)
        · rintro ⟨_, h | ⟨d, hd, hne, _, _⟩⟩
          · exact absurd h.2.1 (by decide)
          · cases hd; exact absurd rfl hne
      | cons r rs =>
        have hred : fromStrRadix10 bound ('+' :: r :: rs) = parseDigits bound (r :: rs) 0 := rfl
        rw [hred, parseDigits_eq_some_iff bound (r :: rs) 0 v hb]
        unfold digitsVal
        constructor
        · rintro ⟨hall, rfl, hv⟩
          exact ⟨hv, Or.inr ⟨r :: rs, rfl, by simp, hall, rfl⟩⟩
        · rintro ⟨hv, h | ⟨d, hd, _, hall, hval⟩⟩
          · exact absurd h.2.1 (by simp)
          · cases hd; exact ⟨hall, hval.symm, hv⟩
    · have hsplit : fromStrRadix10 bound (c :: rest) = parseDigits bound (c :: rest) 0 := by
        simp [fromStrRadix10, hc]
      rw [hsplit, parseDigits_eq_some_iff bound (c :: rest) 0 v hb]
      unfold digitsVal
      constructor
      · rintro ⟨hall, rfl, hv⟩
        exact ⟨hv, Or.inl ⟨by simp, hall, rfl⟩⟩
      · rintro ⟨hv, h | ⟨d, hd, _, _, _⟩⟩
        · exact ⟨h.2.1, h.2.2.symm, hv⟩
        · cases hd; exact absurd rfl hc

theorem validate_steam64_eq_some' (input : List Char) (v : Nat) :
    validate_steam64 input = some v ↔
      (input.length = 17 ∧ fromStrRadix10 (2^64) input = some v ∧ v % 2^32 ≠ 0) := by
  unfold validate_steam64
  by_cases hl : input.length = 17
  · simp only [hl, if_true, true_and]
    cases hf : fromStrRadix10 (2^64) input with
    | none => simp
    | some w =>
      show (if w % 2^32 ≠ 0 then some w else none) = some v ↔ some w = some v ∧ v % 2^32 ≠ 0
      by_cases hw : w % 2^32 ≠ 0
      · rw [if_pos hw]
        constructor
        · intro h; injection h with h; subst h; exact ⟨rfl, hw⟩
        · rintro ⟨h, _⟩; exact h
      · rw [if_neg hw]
        constructor
        · intro h; exact absurd h (by simp)
        · rintro ⟨h, hnz⟩
          injection h with h; subst h
          exact absurd hnz hw
  · simp [hl]

theorem validate_steam64_eq_some_iff (input : List Char) (v : Nat) :
    validate_steam64 input = some v ↔
      (input.length = 17 ∧ v < 2^64 ∧ v % 2^32 ≠ 0 ∧
        ((input.all Char.isDigit = true ∧ digitsVal input = v) ∨
         (∃ d, input = '+' :: d ∧ d ≠ [] ∧ d.all Char.isDigit = true ∧ digitsVal d = v))) := by
  rw [validate_steam64_eq_some']
  have h64 : (0:Nat) < 2^64 := by norm_num
  constructor
  · rintro ⟨hl, hf, hnz⟩
    obtain ⟨hv, hbr⟩ := (fromStrRadix10_eq_some_iff _ _ _ h64).mp hf
    refine ⟨hl, hv, hnz, ?_⟩
    rcases hbr with ⟨_, hall, hval⟩ | hplus
    · exact Or.inl ⟨hall, hval⟩
    · exact Or.inr hplus
  · rintro ⟨hl, hv, hnz, hbr⟩
    have hne : input ≠ [] := by
      intro h; rw [h] at hl; simp at hl
    refine ⟨hl, (fromStrRadix10_eq_some_iff _ _ _ h64).mpr ⟨hv, ?_⟩, hnz⟩
    rcases hbr with ⟨hall, hval⟩ | hplus
    · exact Or.inl ⟨hne, hall, hval⟩
    · exact Or.inr hplus

theorem validate_steam64_bound {input : List Char} {v : Nat}
    (h : validate_steam64 input = some v) : v < 2^64 :=
  ((validate_steam64_eq_some_iff input v).mp h).2.1

theorem validate_steam64_low32 {input : List Char} {v : Nat}
    (h : validate_steam64 input = some v) : v % 2^32 ≠ 0 :=
  ((validate_steam64_eq_some_iff input v).mp h).2.2.1

/-! ## Characterization of the legacy splitter -/

theorem splitOnSep_cons (c : Char) (cs : List Char) :
    splitOnSep (c :: cs) =
      if c = ':' then [] :: splitOnSep cs
      else match splitOnSep cs with
        | p :: ps => (c :: p) :: ps
        | [] => [[c]] := rfl

theorem splitOnSep_ne_nil (l : List Char) : splitOnSep l ≠ [] := by
  cases l with
  | nil => simp [splitOnSep]
  | cons c cs =>
    unfold splitOnSep
    by_cases hc : c = ':'
    · rw [if_pos hc]; simp
    · rw [if_neg hc]
      cases h : splitOnSep cs <;> simp

theorem splitOnSep_no_sep (l : List Char) (h : ∀ c ∈ l, c ≠ ':') :
    splitOnSep l = [l] := by
  induction l with
  | nil => rfl
  | cons c cs ih =>
    have hc : c ≠ ':' := h c (by simp)
    have ih' := ih (fun x hx => h x (by simp [hx]))
    unfold splitOnSep
    rw [if_neg hc, ih']

theorem splitOnSep_append (l₁ l₂ : List Char) (h : ∀ c ∈ l₁, c ≠ ':') :
    splitOnSep (l₁ ++ ':' :: l₂) = l₁ :: splitOnSep l₂ := by
  induction l₁ with
  | nil =>
    show splitOnSep (':' :: l₂) = [] :: splitOnSep l₂
    rw [splitOnSep_cons, if_pos rfl]
  | cons c cs ih =>
    have hc : c ≠ ':' := h c (by simp)
    have ih' := ih (fun x hx => h x (by simp [hx]))
    show splitOnSep (c :: (cs ++ ':' :: l₂)) = (c :: cs) :: splitOnSep l₂
    rw [splitOnSep_cons, if_neg hc, ih']

theorem splitOnSep_eq_cons {s p : List Char} {rest : List (List Char)}
    (h : splitOnSep s = p :: rest) (hrest : rest ≠ []) :
    ∃ t, s = p ++ ':' :: t ∧ splitOnSep t = rest := by
  induction s generalizing p rest with
  | nil =>
    have h' : ([[]] : List (List Char)) = p :: rest := h
    injection h' with h1 h2
    exact absurd h2.symm hrest
  | cons c cs ih =>
    unfold splitOnSep at h
    by_cases hc : c = ':'
    · subst hc
      rw [if_pos rfl] at h
      injection h with h1 h2
      subst h1
      exact ⟨cs, rfl, h2⟩
    · rw [if_neg hc] at h
      cases hq : splitOnSep cs with
      | nil => exact absurd hq (splitOnSep_ne_nil cs)
      | cons q qs =>
        rw [hq] at h
        injection h with h1 h2
        subst h2
        obtain ⟨t, ht, hts⟩ := ih hq hrest
        exact ⟨t, by rw [← h1, ht]; rfl, hts⟩

theorem splitOnSep_eq_singleton {s p : List Char} (h : splitOnSep s = [p]) : s = p := by
  induction s generalizing p with
  | nil =>
    have h' : ([[]] : List (List Char)) = [p] := h
    injection h' with h1 _
  | cons c cs ih =>
    unfold splitOnSep at h
    by_cases hc : c = ':'
    · rw [if_pos hc] at h
      injection h with _ h2
      exact absurd h2 (splitOnSep_ne_nil cs)
    · rw [if_neg hc] at h
      cases hq : splitOnSep cs with
      | nil => exact absurd hq (splitOnSep_ne_nil cs)
      | cons q qs =>
        rw [hq] at h
        injection h with h1 h2
        subst h2
        rw [← h1, ih hq]

theorem splitOnSep_three {s p u a : List Char} (h : splitOnSep s = [p, u, a]) :
    s = p ++ ':' :: (u ++ ':' :: a) := by
  obtain ⟨t, ht, hts⟩ := splitOnSep_eq_cons h (by simp)
  obtain ⟨t2, ht2, hts2⟩ := splitOnSep_eq_cons hts (by simp)
  rw [ht, ht2, splitOnSep_eq_singleton hts2]

theorem fromStrRadix10_none_of_colon {l : List Char} (hmem : ':' ∈ l)
    {bound : Nat} (hb : 0 < bound) : fromStrRadix10 bound l = none := by
  cases hf : fromStrRadix10 bound l with
  | none => rfl
  | some v =>
    obtain ⟨_, hbr⟩ := (fromStrRadix10_eq_some_iff bound l v hb).mp hf
    rcases hbr with ⟨_, hall, _⟩ | ⟨d, rfl, _, hall, _⟩
    · rw [List.all_eq_true] at hall
      exact absurd (hall ':' hmem) (by decide)
    · rcases List.mem_cons.mp hmem with h | h
      · exact absurd h (by decide)
      · rw [List.all_eq_true] at hall
        exact absurd (hall ':' h) (by decide)

theorem validate_steam64_none_of_split {s p u a : List Char}
    (h : splitOnSep s = [p, u, a]) : validate_steam64 s = none := by
  have hs := splitOnSep_three h
  have hmem : ':' ∈ s := by
    rw [hs]; exact List.mem_append_right _ (List.mem_cons_self _ _)
  have hf := fromStrRadix10_none_of_colon hmem (by norm_num : (0:Nat) < 2^64)
  unfold validate_steam64
  by_cases hl : s.length = 17
  · rw [if_pos hl, hf]
  · rw [if_neg hl]

/-! ## Decimal rendering facts -/

theorem toDigitsCore_ne_colon (fuel n : Nat) (ds : List Char)
    (hds : ∀ c ∈ ds, c ≠ ':') : ∀ c ∈ Nat.toDigitsCore 10 fuel n ds, c ≠ ':' := by
  induction fuel generalizing n ds with
  | zero => exact hds
  | succ f ih =>
    have hdig : Nat.digitChar (n % 10) ≠ ':' := by
      have hm : n % 10 < 10 := Nat.mod_lt _ (by norm_num)
      revert hm
      generalize n % 10 = m
      intro hm
      interval_cases m <;> decide
    have hds' : ∀ c ∈ Nat.digitChar (n % 10) :: ds, c ≠ ':' := by
      intro c hc
      rcases List.mem_cons.mp hc with rfl | hc
      · exact hdig
      · exact hds c hc
    unfold Nat.toDigitsCore
    by_cases hn : n / 10 = 0
    · rw [if_pos hn]
      exact hds'
    · rw [if_neg hn]
      exact ih (n / 10) _ hds'

theorem toDigits_ne_colon (n : Nat) : ∀ c ∈ Nat.toDigits 10 n, c ≠ ':' :=
  toDigitsCore_ne_colon (n + 1) n [] (by simp)

/-! ## The legacy parse path -/

theorem new_legacy {s p uStr aStr : List Char} {u n : Nat}
    (hval : validate_steam2 s = some s)
    (hsplit : splitOnSep s = [p, uStr, aStr])
    (hu : fromStrRadix10 (2^32) uStr = some u)
    (hn : fromStrRadix10 (2^32) aStr = some n) :
    SteamID.new s = NewOutcome.returns (some {
      universe_ := if u = 0 then Universe.Public
                   else (Universe.from_u32 u).getD Universe.Public
      type_ := Type'.Individual
      instance_ := Instance.Desktop
      account_id := n }) := by
  have h64 := validate_steam64_none_of_split hsplit
  simp only [SteamID.new, h64, hval, hsplit, hu, hn]

/-! ## Claims -/

/-- C1 (counterexample): the numeric-form validator does NOT accept only
all-digit strings: `"+0000000000000001"` is exactly 17 characters,
contains the non-digit `'+'`, and is accepted with value 1, because
Rust's `u64::from_str_radix` accepts an optional leading plus sign.  This
refutes the claim's "if and only if ... all of them decimal digits". -/
theorem C1_counterexample :
    validate_steam64 ("+0000000000000001".toList) = some 1 ∧
    ("+0000000000000001".toList).length = 17 ∧
    ("+0000000000000001".toList).all Char.isDigit = false := by decide

/-- C1 (amended): `validate_steam64` returns the parsed value `v` iff the
input is exactly 17 characters and is either all decimal digits, or a
leading `'+'` followed only by decimal digits, with the parsed value
fitting in 64 bits and having nonzero low 32 bits; all other inputs yield
absence.  (The amendment adds the leading-plus alternative which Rust's
unsigned integer parser accepts; everything else is as claimed.) -/
theorem C1_amended (input : List Char) (v : Nat) :
    validate_steam64 input = some v ↔
      (input.length = 17 ∧ v < 2^64 ∧ v % 2^32 ≠ 0 ∧
        ((input.all Char.isDigit = true ∧ digitsVal input = v) ∨
         (∃ d, input = '+' :: d ∧ d ≠ [] ∧ d.all Char.isDigit = true ∧ digitsVal d = v))) :=
  validate_steam64_eq_some_iff input v

/-- C2: for every input the numeric-form validator accepts with value `v`,
parse produces the Identifier whose universe is field-mapped from bits
56–63 of `v` (fallback Invalid), kind from bits 52–55 (fallback Invalid),
instance from bits 32–51, i.e. `v >> 32 & 0xFFFFF` (fallback All), and
accountNumber is the low 32 bits of `v`. -/
theorem C2_numeric_decomposition (input : List Char) (v : Nat)
    (h : validate_steam64 input = some v) :
    SteamID.new input = NewOutcome.returns (some {
      universe_ := (Universe.from_u32 (v / 2^56)).getD Universe.Invalid
      type_ := (Type'.from_u32 (v / 2^52 % 16)).getD Type'.Invalid
      instance_ := (Instance.from_u32 (v / 2^32 % 2^20)).getD Instance.All
      account_id := v % 2^32 }) := by
  have h64 : v < 2^64 := validate_steam64_bound h
  have h8 : v / 2^56 < 2^8 :=
    Nat.div_lt_of_lt_mul (by calc v < 2^64 := h64
                               _ = 2^56 * 2^8 := by norm_num)
  have hmod : v / 2^56 % 2^32 = v / 2^56 :=
    Nat.mod_eq_of_lt (lt_trans h8 (by norm_num))
  simp only [SteamID.new, h, hmod]

/-- Witness for C2 at the numeric form from the crate's doc test. -/
theorem C2_numeric_decomposition_witness :
    validate_steam64 ("76561198403256399".toList) = some 76561198403256399 ∧
    SteamID.new ("76561198403256399".toList) = NewOutcome.returns (some {
      universe_ := (Universe.from_u32 (76561198403256399 / 2^56)).getD Universe.Invalid
      type_ := (Type'.from_u32 (76561198403256399 / 2^52 % 16)).getD Type'.Invalid
      instance_ := (Instance.from_u32 (76561198403256399 / 2^32 % 2^20)).getD Instance.All
      account_id := 76561198403256399 % 2^32 }) :=
  ⟨by decide, C2_numeric_decomposition _ _ (by decide)⟩

/-- C3 (counterexample): an Identifier produced by parse via the legacy
textual scheme can have accountNumber 0: `"STEAM_0:0:0"` parses to an
identifier whose accountNumber's low 32 bits are zero, refuting the
claim's "via either textual scheme". -/
theorem C3_counterexample :
    SteamID.new ("STEAM_0:0:0".toList) = NewOutcome.returns (some
      ⟨Universe.Public, Type'.Individual, Instance.Desktop, 0⟩) ∧
    (SteamID.mk Universe.Public Type'.Individual Instance.Desktop 0).account_id % 2^32 = 0 := by
  decide

/-- C3 (amended): every Identifier produced by parse via the numeric
scheme has nonzero low 32 bits in its accountNumber.  (The legacy scheme
does not enforce the invariant — see the counterexample — so the
amendment restricts the claim to the numeric path, whose validator is the
sole place the check is performed.) -/
theorem C3_amended (input : List Char) (v : Nat) (id : SteamID)
    (hv : validate_steam64 input = some v)
    (hnew : SteamID.new input = NewOutcome.returns (some id)) :
    id.account_id % 2^32 ≠ 0 := by
  have hnz := validate_steam64_low32 hv
  simp only [SteamID.new, hv] at hnew
  injection hnew with h1
  injection h1 with h2
  subst h2
  show v % 2^32 % 2^32 ≠ 0
  rw [Nat.mod_mod_of_dvd v (dvd_refl _)]
  exact hnz

/-- Witness for C3 (amended) at the numeric form from the doc test. -/
theorem C3_amended_witness :
    (SteamID.mk Universe.Public Type'.Individual Instance.Desktop 442990671).account_id
      % 2^32 ≠ 0 :=
  C3_amended ("76561198403256399".toList) 76561198403256399 _ (by decide) (by decide)

/-- C4 (the code at the failing input): `"STEAM_0:1:x"` is accepted by the
legacy validator, but its account segment fails the u32 parse, and `new`
panics (`.unwrap()` aborts the process) instead of returning absence.
Parse is therefore not total with a binary outcome; the claim matches the
spec's and the function's own documented intent ("Returns None if the
input is not a valid SteamID"), and the code is in the wrong. -/
theorem C4_panic_on_bad_segment :
    validate_steam2 ("STEAM_0:1:x".toList) = some ("STEAM_0:1:x".toList) ∧
    SteamID.new ("STEAM_0:1:x".toList) = NewOutcome.panics := by decide

/-- C5: renderLegacy returns absence for every identifier whose kind is
not Individual, and a string for every identifier whose kind is
Individual. -/
theorem C5_render_individual_only (id : SteamID) :
    (id.type_ ≠ Type'.Individual → id.render_as_steam2 = none) ∧
    (id.type_ = Type'.Individual → ∃ s, id.render_as_steam2 = some s) := by
  constructor
  · intro h
    unfold SteamID.render_as_steam2
    rw [if_pos h]
  · intro h
    unfold SteamID.render_as_steam2
    rw [if_neg (by simp [h])]
    exact ⟨_, rfl⟩

/-- Witness for C5: a Clan identifier renders to absence, an Individual
one to a string. -/
theorem C5_render_individual_only_witness :
    (SteamID.mk Universe.Public Type'.Clan Instance.Desktop 1).render_as_steam2 = none ∧
    ∃ s, (SteamID.mk Universe.Public Type'.Individual Instance.Desktop 1).render_as_steam2
      = some s :=
  ⟨(C5_render_individual_only _).1 (by decide), (C5_render_individual_only _).2 rfl⟩

/-- C6: for every identifier of kind Individual, renderLegacy produces
exactly `STEAM_{u}:{i}:{m}` where `u` is the universe's integer code with
Public (code 1) normalized to 0, `i` is the instance's integer code, and
`m` is `⌊accountNumber/2⌋` in decimal. -/
theorem C6_render_format (id : SteamID) (h : id.type_ = Type'.Individual) :
    id.render_as_steam2 = some ("STEAM_".toList
      ++ Nat.toDigits 10 (if id.universe_ = Universe.Public then 0 else id.universe_.toU32)
      ++ ':' :: Nat.toDigits 10 id.instance_.toU32
      ++ ':' :: Nat.toDigits 10 (id.account_id / 2)) := by
  obtain ⟨u, t, i, a⟩ := id
  have h' : t = Type'.Individual := h
  subst h'
  cases u <;> rfl

/-- Witness for C6 at the identifier from the crate's doc test. -/
theorem C6_render_format_witness :
    (SteamID.mk Universe.Public Type'.Individual Instance.Desktop 442990671).render_as_steam2
      = some ("STEAM_0:1:221495335".toList) := by
  have h := C6_render_format
    (SteamID.mk Universe.Public Type'.Individual Instance.Desktop 442990671) rfl
  rw [h]
  decide

/-- C7 (counterexample): `"STEAM_0:4294967296:1"` passes the legacy
validator, its second segment parses as the unsigned integer 4294967296
(all digits), its third segment parses as the 32-bit integer 1, yet parse
panics — the universe segment overflows `u32` and the `.unwrap()` aborts —
instead of producing an Identifier with the Public fallback. -/
theorem C7_counterexample :
    validate_steam2 ("STEAM_0:4294967296:1".toList)
      = some ("STEAM_0:4294967296:1".toList) ∧
    splitOnSep ("STEAM_0:4294967296:1".toList)
      = ["STEAM_0".toList, "4294967296".toList, "1".toList] ∧
    ("4294967296".toList.all Char.isDigit = true ∧
      digitsVal ("4294967296".toList) = 4294967296) ∧
    fromStrRadix10 (2^32) ("1".toList) = some 1 ∧
    SteamID.new ("STEAM_0:4294967296:1".toList) = NewOutcome.panics := by decide

/-- C7 (amended): for every input accepted by the legacy validator whose
second segment parses as an unsigned 32-bit integer `u` and whose third
segment parses as an unsigned 32-bit integer `n`, parse produces the
Identifier with kind Individual, instance Desktop, accountNumber `n`, and
universe Public when `u = 0`, otherwise the field-mapped `u` with Public
(not Invalid) as fallback.  (The amendment bounds the universe numeral by
32 bits: on a wider numeral the code panics, see the counterexample.) -/
theorem C7_amended (s p uStr aStr : List Char) (u n : Nat)
    (hval : validate_steam2 s = some s)
    (hsplit : splitOnSep s = [p, uStr, aStr])
    (hu : fromStrRadix10 (2^32) uStr = some u)
    (hn : fromStrRadix10 (2^32) aStr = some n) :
    SteamID.new s = NewOutcome.returns (some {
      universe_ := if u = 0 then Universe.Public
                   else (Universe.from_u32 u).getD Universe.Public
      type_ := Type'.Individual
      instance_ := Instance.Desktop
      account_id := n }) :=
  new_legacy hval hsplit hu hn

/-- Witness for C7 (amended) at `"STEAM_0:0:7"`. -/
theorem C7_amended_witness :
    SteamID.new ("STEAM_0:0:7".toList) = NewOutcome.returns (some {
      universe_ := if 0 = 0 then Universe.Public
                   else (Universe.from_u32 0).getD Universe.Public
      type_ := Type'.Individual
      instance_ := Instance.Desktop
      account_id := 7 }) :=
  C7_amended ("STEAM_0:0:7".toList) ("STEAM_0".toList) ("0".toList) ("7".toList) 0 7
    (by decide) (by decide) (by decide) (by decide)

/-- C8: the legacy validator returns the input unchanged when splitting on
`':'` yields exactly 3 parts with first part literally `"STEAM_0"` or
`"STEAM_1"` (the other two parts unconstrained — not checked to be
numeric), and absence in every other case. -/
theorem C8_validate_steam2_characterization (s : List Char) :
    ((∃ u b c, splitOnSep s = [u, b, c] ∧
        (u = "STEAM_0".toList ∨ u = "STEAM_1".toList)) →
      validate_steam2 s = some s) ∧
    ((¬ ∃ u b c, splitOnSep s = [u, b, c] ∧
        (u = "STEAM_0".toList ∨ u = "STEAM_1".toList)) →
      validate_steam2 s = none) := by
  constructor
  · rintro ⟨u, b, c, hsplit, hu⟩
    unfold validate_steam2
    rw [hsplit]
    rcases hu with rfl | rfl
    · show (if "STEAM_0".toList ≠ "STEAM_0".toList ∧ "STEAM_0".toList ≠ "STEAM_1".toList
          then none else some s) = some s
      rw [if_neg (by decide)]
    · show (if "STEAM_1".toList ≠ "STEAM_0".toList ∧ "STEAM_1".toList ≠ "STEAM_1".toList
          then none else some s) = some s
      rw [if_neg (by decide)]
  · intro hn
    unfold validate_steam2
    cases hsp : splitOnSep s with
    | nil => rfl
    | cons u rest =>
      cases rest with
      | nil => rfl
      | cons b rest2 =>
        cases rest2 with
        | nil => rfl
        | cons c rest3 =>
          cases rest3 with
          | cons d rest4 => rfl
          | nil =>
            by_cases hu : u = "STEAM_0".toList ∨ u = "STEAM_1".toList
            · exact absurd ⟨u, b, c, hsp, hu⟩ hn
            · push_neg at hu
              show (if u ≠ "STEAM_0".toList ∧ u ≠ "STEAM_1".toList
                  then none else some s) = none
              rw [if_pos hu]

/-- Witness for C8: the spec's example is accepted unchanged; `"23"`
(wrong part count) is rejected. -/
theorem C8_validate_steam2_characterization_witness :
    validate_steam2 ("STEAM_0:1:221495335".toList)
      = some ("STEAM_0:1:221495335".toList) ∧
    validate_steam2 ("23".toList) = none :=
  ⟨(C8_validate_steam2_characterization _).1
      ⟨"STEAM_0".toList, "1".toList, "221495335".toList, by decide, Or.inl rfl⟩,
   (C8_validate_steam2_characterization _).2 (by
      rintro ⟨u, b, c, h, _⟩
      rw [show splitOnSep ("23".toList) = [['2','3']] from by decide] at h
      exact absurd h (by simp))⟩

/-- Rendering an Individual identifier and re-splitting the result on
`':'` recovers the three fields (no field contains a `':'`). -/
theorem render_split (id : SteamID) (h : id.type_ = Type'.Individual) :
    id.render_as_steam2 = some
      (("STEAM_".toList
          ++ Nat.toDigits 10 (if id.universe_.toU32 = 1 then 0 else id.universe_.toU32))
        ++ ':' :: (Nat.toDigits 10 id.instance_.toU32
          ++ ':' :: Nat.toDigits 10 (id.account_id / 2))) ∧
    splitOnSep
      (("STEAM_".toList
          ++ Nat.toDigits 10 (if id.universe_.toU32 = 1 then 0 else id.universe_.toU32))
        ++ ':' :: (Nat.toDigits 10 id.instance_.toU32
          ++ ':' :: Nat.toDigits 10 (id.account_id / 2)))
      = ["STEAM_".toList
          ++ Nat.toDigits 10 (if id.universe_.toU32 = 1 then 0 else id.universe_.toU32),
         Nat.toDigits 10 id.instance_.toU32,
         Nat.toDigits 10 (id.account_id / 2)] := by
  have hA : ∀ c ∈ "STEAM_".toList
      ++ Nat.toDigits 10 (if id.universe_.toU32 = 1 then 0 else id.universe_.toU32),
      c ≠ ':' := by
    intro c hc
    rcases List.mem_append.mp hc with hmem | hmem
    · have hS : "STEAM_".toList = ['S','T','E','A','M','_'] := rfl
      rw [hS] at hmem
      simp only [List.mem_cons, List.not_mem_nil, or_false] at hmem
      rcases hmem with rfl | rfl | rfl | rfl | rfl | rfl <;> decide
    · exact toDigits_ne_colon _ c hmem
  constructor
  · unfold SteamID.render_as_steam2
    rw [if_neg (by simp [h])]
    simp [List.append_assoc]
  · rw [splitOnSep_append _ _ hA, splitOnSep_append _ _ (toDigits_ne_colon _),
        splitOnSep_no_sep _ (toDigits_ne_colon _)]

/-- C9: parsing a valid legacy-form string whose universe segment parses
as a 32-bit integer and whose account segment is an odd 32-bit integer
`n`, then rendering, yields a string whose third colon-field is the
decimal numeral of `⌊n/2⌋`, which differs from `n`: the round trip does
not reproduce the original odd account number. -/
theorem C9_roundtrip_asymmetry (s p uStr aStr : List Char) (u n : Nat)
    (hval : validate_steam2 s = some s)
    (hsplit : splitOnSep s = [p, uStr, aStr])
    (hu : fromStrRadix10 (2^32) uStr = some u)
    (hn : fromStrRadix10 (2^32) aStr = some n)
    (hodd : n % 2 = 1) :
    ∃ id r, SteamID.new s = NewOutcome.returns (some id) ∧
      id.render_as_steam2 = some r ∧
      (splitOnSep r)[2]? = some (Nat.toDigits 10 (n / 2)) ∧
      n / 2 ≠ n := by
  refine ⟨_, _, new_legacy hval hsplit hu hn, (render_split _ rfl).1, ?_, by omega⟩
  rw [(render_split _ rfl).2]
  rfl

/-- Witness for C9 at `"STEAM_0:1:221495335"` (odd account 221495335). -/
theorem C9_roundtrip_asymmetry_witness :
    ∃ id r, SteamID.new ("STEAM_0:1:221495335".toList) = NewOutcome.returns (some id) ∧
      id.render_as_steam2 = some r ∧
      (splitOnSep r)[2]? = some (Nat.toDigits 10 (221495335 / 2)) ∧
      221495335 / 2 ≠ 221495335 :=
  C9_roundtrip_asymmetry ("STEAM_0:1:221495335".toList) ("STEAM_0".toList)
    ("1".toList) ("221495335".toList) 1 221495335
    (by decide) (by decide) (by decide) (by decide) (by decide)

theorem render_never_steam1_aux (u : Universe) (t₁ t₂ : List Char) :
    ("STEAM_1:".toList).isPrefixOf
      ("STEAM_".toList ++ Nat.toDigits 10 (if u.toU32 = 1 then 0 else u.toU32)
        ++ ':' :: t₁ ++ ':' :: t₂) = false := by
  cases u
  case Invalid =>
    show ("STEAM_1:".toList).isPrefixOf
      ("STEAM_".toList ++ Nat.toDigits 10 0 ++ ':' :: t₁ ++ ':' :: t₂) = false
    exact rfl
  case Public =>
    show ("STEAM_1:".toList).isPrefixOf
      ("STEAM_".toList ++ Nat.toDigits 10 0 ++ ':' :: t₁ ++ ':' :: t₂) = false
    exact rfl
  case Beta =>
    show ("STEAM_1:".toList).isPrefixOf
      ("STEAM_".toList ++ Nat.toDigits 10 2 ++ ':' :: t₁ ++ ':' :: t₂) = false
    exact rfl
  case Internal =>
    show ("STEAM_1:".toList).isPrefixOf
      ("STEAM_".toList ++ Nat.toDigits 10 3 ++ ':' :: t₁ ++ ':' :: t₂) = false
    exact rfl
  case Dev =>
    show ("STEAM_1:".toList).isPrefixOf
      ("STEAM_".toList ++ Nat.toDigits 10 4 ++ ':' :: t₁ ++ ':' :: t₂) = false
    exact rfl

/-- C10: whenever renderLegacy returns a string, that string never begins
with `"STEAM_1:"` — Public (code 1) is rewritten to 0 before formatting
and no other universe code prints as 1 — while the legacy validator
accepts strings with the `"STEAM_1"` prefix, so the accepted prefix set
{STEAM_0, STEAM_1} strictly contains the producible one. -/
theorem C10_renderer_never_steam1 :
    (∀ (id : SteamID) (r : List Char), id.render_as_steam2 = some r →
      ("STEAM_1:".toList).isPrefixOf r = false) ∧
    validate_steam2 ("STEAM_1:0:1".toList) = some ("STEAM_1:0:1".toList) := by
  constructor
  · intro id r h
    obtain ⟨u, t, i, a⟩ := id
    by_cases ht : t = Type'.Individual
    · subst ht
      unfold SteamID.render_as_steam2 at h
      rw [if_neg (by simp)] at h
      injection h with h1
      subst h1
      show ("STEAM_1:".toList).isPrefixOf
        ("STEAM_".toList ++ Nat.toDigits 10 (if u.toU32 = 1 then 0 else u.toU32)
          ++ ':' :: Nat.toDigits 10 i.toU32 ++ ':' :: Nat.toDigits 10 (a / 2)) = false
      exact render_never_steam1_aux u (Nat.toDigits 10 i.toU32) (Nat.toDigits 10 (a / 2))
    · unfold SteamID.render_as_steam2 at h
      rw [if_pos ht] at h
      exact Option.noConfusion h
  · decide

/-- Witness for C10: the rendered doc-test string does not begin with
`"STEAM_1:"`. -/
theorem C10_renderer_never_steam1_witness :
    ("STEAM_1:".toList).isPrefixOf ("STEAM_0:1:221495335".toList) = false :=
  C10_renderer_never_steam1.1
    (SteamID.mk Universe.Public Type'.Individual Instance.Desktop 442990671) _ (by decide)









end ScreamId
